import Mathlib

/-!
Shallow embedding of peter25316/Document-Analyzation-Automated-Pipeline.

The repository has three Python source files:
  * src/main.py — rule-based extraction pipeline over PDFs (regex heuristics);
  * src/automated-pipeline/extract_data.py — Gemini-delegated extraction
    orchestrator over a SQLite ledger;
  * src/automated-pipeline/extraction_testing.py — acquisition/OCR stage.

The regex searches of main.py are embedded via a small backtracking matcher
over an abstract syntax of exactly the constructs those patterns use
(case-insensitive literals, character classes, greedy bounded repetition of a
character class, ordered alternation, greedy option, capture groups, and the
word-boundary assertion).  Priority order of the produced result list mirrors
the Python re module backtracking order, so the head of the list is the match
Python returns.  All source patterns are compiled with re.IGNORECASE and the
relevant texts are ASCII, so case folding is ASCII case folding.
-/

namespace DocPipeline

/-- ASCII lower-casing on code points: the case folding used by re.IGNORECASE
on the ASCII texts this development evaluates. -/
def lowerN (n : Nat) : Nat := if 65 ≤ n ∧ n ≤ 90 then n + 32 else n

/-- Case-insensitive character equality (ASCII). -/
def ciEq (a b : Char) : Bool := lowerN a.toNat == lowerN b.toNat

/-- Python regex `\d`. -/
def isDigitCh (c : Char) : Bool := 48 ≤ c.toNat && c.toNat ≤ 57

/-- Python regex `\w` (ASCII part): letter, digit or underscore; used by the
`\b` word-boundary assertion. -/
def isWordCh (c : Char) : Bool :=
  (65 ≤ c.toNat && c.toNat ≤ 90) || (97 ≤ c.toNat && c.toNat ≤ 122) ||
  isDigitCh c || c == '_'

/-- Python regex `\s` (ASCII part). -/
def isWsCh (c : Char) : Bool :=
  c == ' ' || c == '\t' || c == '\n' || c == '\x0d' || c == '\x0b' || c == '\x0c'

/-- The class `[ \t]` used by the whitespace-normalisation re.sub in
find_candidate_blocks. -/
def isSpaceTab (c : Char) : Bool := c == ' ' || c == '\t'

/-- The class `[:\-]` used by several field patterns of extract_fields. -/
def isColonDash (c : Char) : Bool := c == ':' || c == '-'

/-- The class `[A-Z0-9\-\&\.,' ]` of the project_or_applicant pattern, under
re.IGNORECASE (so lower-case letters match as well). -/
def isProjCh (c : Char) : Bool :=
  (65 ≤ c.toNat && c.toNat ≤ 90) || (97 ≤ c.toNat && c.toNat ≤ 122) ||
  isDigitCh c || c == '-' || c == '&' || c == '.' || c == ',' ||
  c.toNat == 39 || c == ' '

/-- The class `[^\n]`. -/
def isNotNl (c : Char) : Bool := !(c == '\n')

/-- The class `[^.]`. -/
def isNotDot (c : Char) : Bool := !(c == '.')

/-- The class `[s]` (under re.IGNORECASE). -/
def isSCh (c : Char) : Bool := c == 's' || c == 'S'

/-- The class `[-_/\.]` of guess_meeting_date_from_name. -/
def isDateSep (c : Char) : Bool := c == '-' || c == '_' || c == '/' || c == '.'

/-- Abstract syntax of the regex constructs appearing in main.py.  `rep` is
greedy bounded repetition of a single character class (every repetition in the
source patterns is over a one-character class), `opt` is greedy `?`, `alt`
tries the left branch first, `grp` records a capture group, `wb` is `\b`. -/
inductive RE where
  | lit (s : String)
  | cls (p : Char → Bool)
  | rep (p : Char → Bool) (lo : Nat) (hi : Option Nat)
  | cat (a b : RE)
  | alt (a b : RE)
  | opt (a : RE)
  | grp (i : Nat) (a : RE)
  | wb

/-- Matcher state: the character immediately before the current position (for
`\b`), the remaining input, and the captures recorded so far. -/
structure MState where
  prev : Option Char
  rest : List Char
  caps : List (Nat × List Char)
deriving Repr, DecidableEq

/-- Sequence a list of regexes. -/
def seqs : List RE → RE
  | [] => .lit ""
  | [r] => r
  | r :: rs => .cat r (seqs rs)

/-- Ordered alternation of a list of regexes (first listed is tried first,
as in Python). -/
def alts : List RE → RE
  | [] => .lit ""
  | [r] => r
  | r :: rs => .alt r (alts rs)

/-- Length of the maximal prefix of `l` whose characters satisfy `p`. -/
def takeRun (p : Char → Bool) : List Char → Nat
  | [] => 0
  | c :: t => if p c then takeRun p t + 1 else 0

/-- `[hi, hi-1, ..., lo]` — candidate repetition counts in greedy order. -/
def descRange (lo hi : Nat) : List Nat :=
  (List.range (hi + 1 - lo)).map (fun i => hi - i)

/-- Consume a case-insensitive literal. -/
def litTake : List Char → List Char → Option (List Char × List Char)
  | [], rest => some ([], rest)
  | _ :: _, [] => none
  | p :: ps, c :: rest =>
    if ciEq p c then
      match litTake ps rest with
      | some (con, rst) => some (c :: con, rst)
      | none => none
    else none

/-- New previous-character after consuming `con`. -/
def updPrev (con : List Char) (old : Option Char) : Option Char :=
  match con.getLast? with
  | some c => some c
  | none => old

/-- The backtracking matcher.  Returns the list of possible
(consumed characters, new state) pairs in Python backtracking priority order:
the head is the result Python's re module commits to. -/
def matchRE : RE → MState → List (List Char × MState)
  | .lit s, st =>
    match litTake s.data st.rest with
    | some (con, rst) => [(con, ⟨updPrev con st.prev, rst, st.caps⟩)]
    | none => []
  | .cls p, st =>
    match st.rest with
    | c :: rst => if p c then [([c], ⟨some c, rst, st.caps⟩)] else []
    | [] => []
  | .rep p lo hi, st =>
    let run := takeRun p st.rest
    let maxK := match hi with | some h => min h run | none => run
    if lo ≤ maxK then
      (descRange lo maxK).map (fun k =>
        let con := st.rest.take k
        (con, ⟨updPrev con st.prev, st.rest.drop k, st.caps⟩))
    else []
  | .cat a b, st =>
    (matchRE a st).flatMap (fun r1 =>
      (matchRE b r1.2).map (fun r2 => (r1.1 ++ r2.1, r2.2)))
  | .alt a b, st => matchRE a st ++ matchRE b st
  | .opt a, st => matchRE a st ++ [([], st)]
  | .grp i a, st =>
    (matchRE a st).map (fun r => (r.1, ⟨r.2.prev, r.2.rest, (i, r.1) :: r.2.caps⟩))
  | .wb, st =>
    let lw := match st.prev with | some c => isWordCh c | none => false
    let rw := match st.rest with | c :: _ => isWordCh c | [] => false
    if lw != rw then [([], st)] else []

/-- re.search: try the pattern at each position from the left; at the first
position with a match, commit to the highest-priority result there.  Returns
(consumed characters of the whole match, final state). -/
def searchAux (r : RE) (prev : Option Char) : List Char → Option (List Char × MState)
  | [] =>
    match matchRE r ⟨prev, [], []⟩ with
    | res :: _ => some res
    | [] => none
  | c :: rst =>
    match matchRE r ⟨prev, c :: rst, []⟩ with
    | res :: _ => some res
    | [] => searchAux r (some c) rst

/-- re.search over a string. -/
def reSearch (r : RE) (s : String) : Option (List Char × MState) :=
  searchAux r none s.data

/-- Group capture `i` of a search result (None when the search fails). -/
def reGroup (r : RE) (i : Nat) (s : String) : Option String :=
  match reSearch r s with
  | some (_, st) =>
    match st.caps.find? (fun p => p.1 == i) with
    | some p => some (String.mk p.2)
    | none => none
  | none => none

/-- Group 0 (the whole match) of a search result. -/
def reGroup0 (r : RE) (s : String) : Option String :=
  match reSearch r s with
  | some (con, _) => some (String.mk con)
  | none => none

/-- re.finditer restricted to whole-match strings: repeatedly search, then
continue after the end of each (non-overlapping) match; an empty match
advances one character.  `fuel` bounds the iteration (the callers pass the
input length plus one, which is always sufficient). -/
def finditAux (r : RE) (prev : Option Char) (rest : List Char) : Nat → List String
  | 0 => []
  | fuel + 1 =>
    match searchAux r prev rest with
    | none => []
    | some (con, st) =>
      match con with
      | [] =>
        String.mk con ::
          (match st.rest with
           | c :: rst => finditAux r (some c) rst fuel
           | [] => [])
      | _ => String.mk con :: finditAux r st.prev st.rest fuel

/-- re.finditer over a string, whole-match strings in order. -/
def reFindIter (r : RE) (s : String) : List String :=
  finditAux r none s.data (s.data.length + 1)

/-! ### Python string helpers used by the source -/

/-- Python str.strip(): remove leading and trailing whitespace. -/
def pyStripL (l : List Char) : List Char :=
  ((l.dropWhile isWsCh).reverse.dropWhile isWsCh).reverse

/-- Python str.strip() on String. -/
def pyStrip (s : String) : String := String.mk (pyStripL s.data)

/-- Python str.upper() (ASCII; the router response text is ASCII). -/
def pyUpper (s : String) : String :=
  String.mk (s.data.map (fun c => Char.ofNat (
    if 97 ≤ c.toNat ∧ c.toNat ≤ 122 then c.toNat - 32 else c.toNat)))

/-- Python s[:n] slicing. -/
def pyTake (n : Nat) (s : String) : String := String.mk (s.data.take n)

/-- Does `pat` occur at the head of `l` (exact, case-sensitive)? -/
def headIs : List Char → List Char → Bool
  | [], _ => true
  | _ :: _, [] => false
  | p :: ps, c :: cs => p == c && headIs ps cs

/-- Python `sub in s`: does `sub` occur as a contiguous substring of `l`? -/
def subOccursL (sub l : List Char) : Bool :=
  headIs sub l ||
    (match l with
     | [] => false
     | _ :: t => subOccursL sub t)

/-- Python `sub in s` on Strings. -/
def subOccurs (sub s : String) : Bool := subOccursL sub.data s.data

/-- Python str.replace(pat, rep) with a non-empty pattern: replace every
non-overlapping occurrence from the left.  `fuel` bounds recursion; callers
pass the input length, which suffices since the pattern is non-empty. -/
def replaceAllAux (pat rep : List Char) : Nat → List Char → List Char
  | 0, s => s
  | _, [] => []
  | fuel + 1, c :: rest =>
    if headIs pat (c :: rest) && !pat.isEmpty then
      rep ++ replaceAllAux pat rep fuel ((c :: rest).drop pat.length)
    else c :: replaceAllAux pat rep fuel rest

/-- Python str.replace on Strings. -/
def pyReplace (s pat rep : String) : String :=
  String.mk (replaceAllAux pat.data rep.data s.data.length s.data)

/-- The whitespace normalisation of find_candidate_blocks:
re.sub of `[ \t]+` by a single space (each maximal run of spaces/tabs
collapses to one space).  `inRun` records whether the previous character was
inside such a run. -/
def collapseAux (inRun : Bool) : List Char → List Char
  | [] => []
  | c :: rest =>
    if isSpaceTab c then
      (if inRun then [] else [' ']) ++ collapseAux true rest
    else c :: collapseAux false rest

/-- Whitespace normalisation on Strings. -/
def collapseWs (s : String) : String := String.mk (collapseAux false s.data)

/-! ### The regex patterns of src/main.py (all compiled with re.IGNORECASE) -/

/-- `\s*` -/
def wsStar : RE := .rep isWsCh 0 none

/-- `\s+` -/
def wsPlus : RE := .rep isWsCh 1 none

/-- Candidate-page filter of find_candidate_blocks:
`(Conditional\s+Use\s+Permit|Special\s+Use\s+Permit|Solar\b|Photovoltaic|2232)` -/
def keywordRE : RE :=
  .grp 1 (alts
    [seqs [.lit "Conditional", wsPlus, .lit "Use", wsPlus, .lit "Permit"],
     seqs [.lit "Special", wsPlus, .lit "Use", wsPlus, .lit "Permit"],
     .cat (.lit "Solar") .wb,
     .lit "Photovoltaic",
     .lit "2232"])

/-- `\b(Applicant|Application|Project)\s*[:\-]\s*([A-Z0-9\-\&\.,' ]{5,120})` -/
def projRE : RE :=
  seqs [.wb,
        .grp 1 (alts [.lit "Applicant", .lit "Application", .lit "Project"]),
        wsStar, .cls isColonDash, wsStar,
        .grp 2 (.rep isProjCh 5 (some 120))]

/-- `(\d{1,3}(?:\.\d+)?)\s*MW\b` -/
def mwRE : RE :=
  seqs [.grp 1 (.cat (.rep isDigitCh 1 (some 3))
                     (.opt (.cat (.lit ".") (.rep isDigitCh 1 none)))),
        wsStar, .lit "MW", .wb]

/-- `(\d{1,4}(?:\.\d+)?)\s*acre[s]?\b` -/
def acresRE : RE :=
  seqs [.grp 1 (.cat (.rep isDigitCh 1 (some 4))
                     (.opt (.cat (.lit ".") (.rep isDigitCh 1 none)))),
        wsStar, .lit "acre", .opt (.cls isSCh), .wb]

/-- `\b(Location|Address|Parcel|Tax\s*Map|GPIN|PIN)\s*[:\-]\s*([^\n]{5,160})` -/
def locRE : RE :=
  seqs [.wb,
        .grp 1 (alts [.lit "Location", .lit "Address", .lit "Parcel",
                      seqs [.lit "Tax", wsStar, .lit "Map"],
                      .lit "GPIN", .lit "PIN"]),
        wsStar, .cls isColonDash, wsStar,
        .grp 2 (.rep isNotNl 5 (some 160))]

/-- `\b(approved|denied|recommend(?:ed)?\s+approval|recommend(?:ed)?\s+denial)\b` -/
def outcomeRE : RE :=
  seqs [.wb,
        .grp 1 (alts [.lit "approved", .lit "denied",
                      seqs [.lit "recommend", .opt (.lit "ed"), wsPlus, .lit "approval"],
                      seqs [.lit "recommend", .opt (.lit "ed"), wsPlus, .lit "denial"]]),
        .wb]

/-- `(roll\s*call\s*vote|vote\s*(?:was\s*)?(?:taken)?(?:\s*and\s*the\s*result[s]?\s*were)?)\s*[:\-]?\s*[^\n]{0,140}` -/
def voteRE : RE :=
  seqs [.grp 1 (alts
          [seqs [.lit "roll", wsStar, .lit "call", wsStar, .lit "vote"],
           seqs [.lit "vote", wsStar,
                 .opt (.cat (.lit "was") wsStar),
                 .opt (.lit "taken"),
                 .opt (seqs [wsStar, .lit "and", wsStar, .lit "the", wsStar,
                             .lit "result", .opt (.cls isSCh), wsStar, .lit "were"])]]),
        wsStar, .opt (.cls isColonDash), wsStar,
        .rep isNotNl 0 (some 140)]

/-- `\b(Ayes?|Yeas?)\s*[:\-]\s*([^\n]+)` -/
def ayesRE : RE :=
  seqs [.wb,
        .grp 1 (alts [.cat (.lit "Aye") (.opt (.cls isSCh)),
                      .cat (.lit "Yea") (.opt (.cls isSCh))]),
        wsStar, .cls isColonDash, wsStar,
        .grp 2 (.rep isNotNl 1 none)]

/-- `\b(Nays?|Nos?)\s*[:\-]\s*([^\n]+)` -/
def naysRE : RE :=
  seqs [.wb,
        .grp 1 (alts [.cat (.lit "Nay") (.opt (.cls isSCh)),
                      .cat (.lit "No") (.opt (.cls isSCh))]),
        wsStar, .cls isColonDash, wsStar,
        .grp 2 (.rep isNotNl 1 none)]

/-- `([^.]{0,140}\b(concern|because|due to|reason|finding|finding[s]? of fact)[^.]{0,140})\.` -/
def reasonRE : RE :=
  seqs [.grp 1 (seqs
          [.rep isNotDot 0 (some 140), .wb,
           .grp 2 (alts [.lit "concern", .lit "because", .lit "due to",
                         .lit "reason", .lit "finding",
                         seqs [.lit "finding", .opt (.cls isSCh), .lit " of fact"]]),
           .rep isNotDot 0 (some 140)]),
        .lit "."]

/-- First date pattern of guess_meeting_date_from_name:
`(\d{4}[-_/\.]\d{1,2}[-_/\.]\d{1,2})` (no re.IGNORECASE, but the pattern has
no letters). -/
def dateRE1 : RE :=
  .grp 1 (seqs [.rep isDigitCh 4 (some 4), .cls isDateSep,
                .rep isDigitCh 1 (some 2), .cls isDateSep,
                .rep isDigitCh 1 (some 2)])

/-- Second date pattern: `(\d{1,2}[-_/\.]\d{1,2}[-_/\.]\d{2,4})`. -/
def dateRE2 : RE :=
  .grp 1 (seqs [.rep isDigitCh 1 (some 2), .cls isDateSep,
                .rep isDigitCh 1 (some 2), .cls isDateSep,
                .rep isDigitCh 2 (some 4)])

/-! ### src/main.py data model and functions -/

/-- A value in the extracted field mapping: a string, or (for
decision_factor_snippets) a list of strings. -/
inductive FVal where
  | str (s : String)
  | strs (l : List String)
deriving Repr, DecidableEq

/-- A page record `{page_number, text}` as produced by
extract_pdf_text_per_page / the OCR fallback. -/
structure Page where
  page_number : Nat
  text : String
deriving Repr, DecidableEq

/-- A candidate block `{page, text}` as produced by find_candidate_blocks. -/
structure Block where
  page : Nat
  text : String
deriving Repr, DecidableEq

/-- find_candidate_blocks (src/main.py lines 78-88): skip pages whose text is
whitespace-only, normalise runs of spaces/tabs to one space, keep pages whose
normalised text matches the topical keyword pattern. -/
def find_candidate_blocks (pages : List Page) : List Block :=
  pages.filterMap (fun p =>
    if (pyStrip p.text).data.isEmpty then none
    else
      let t := collapseWs p.text
      if (reSearch keywordRE t).isSome then some ⟨p.page_number, t⟩ else none)

/-- extract_fields (src/main.py lines 90-132): per-field first-match regex
extraction, fields inserted in source order; a field absent from the mapping
means its pattern did not match. -/
def extract_fields (text : String) : List (String × FVal) :=
  let f1 : List (String × FVal) :=
    match reGroup projRE 2 text with
    | some v => [("project_or_applicant", .str (pyStrip v))]
    | none => []
  let f2 : List (String × FVal) :=
    match reGroup mwRE 1 text with
    | some v => [("mw", .str v)]
    | none => []
  let f3 : List (String × FVal) :=
    match reGroup acresRE 1 text with
    | some v => [("acres", .str v)]
    | none => []
  let f4 : List (String × FVal) :=
    match reGroup locRE 2 text with
    | some v => [("location", .str (pyStrip v))]
    | none => []
  let f5 : List (String × FVal) :=
    match reGroup0 outcomeRE text with
    | some v => [("outcome_phrase", .str v)]
    | none => []
  let f6 : List (String × FVal) :=
    match reGroup0 voteRE text with
    | some v => [("vote_line", .str (pyStrip v))]
    | none => []
  let f7 : List (String × FVal) :=
    match reGroup ayesRE 2 text with
    | some v => [("ayes", .str (pyStrip v))]
    | none => []
  let f8 : List (String × FVal) :=
    match reGroup naysRE 2 text with
    | some v => [("nays", .str (pyStrip v))]
    | none => []
  let reasons := ((reFindIter reasonRE text).take 3).map pyStrip
  let f9 : List (String × FVal) :=
    if reasons.isEmpty then [] else [("decision_factor_snippets", .strs reasons)]
  f1 ++ f2 ++ f3 ++ f4 ++ f5 ++ f6 ++ f7 ++ f8 ++ f9

/-- guess_meeting_date_from_name (src/main.py lines 134-141). -/
def guess_meeting_date_from_name (name : String) : String :=
  match reGroup dateRE1 1 name with
  | some v => v
  | none =>
    match reGroup dateRE2 1 name with
    | some v => v
    | none => ""

/-! ### src/main.py orchestration (the main() function) -/

/-- An output row (src/main.py lines 195-202): identification columns plus
the extracted field mapping merged in by record.update(fields). -/
structure Row where
  filename : String
  relative_path : String
  meeting_date_guess : String
  page : Nat
  fields : List (String × FVal)
deriving Repr, DecidableEq

/-- An audit-snippet line (src/main.py lines 204-209). -/
structure Snip where
  filename : String
  page : Nat
  text_snippet : String
deriving Repr, DecidableEq

/-- Total length of directly extracted page text:
`sum(len(p.get('text') or "") for p in pages)` (src/main.py line 178). -/
def totalTextLen (pages : List Page) : Nat :=
  (pages.map (fun p => p.text.data.length)).sum

/-- The OCR-fallback trigger of src/main.py line 178: the OCR flag is set and
(there are no pages, or the total directly-extracted text of the document is
below 500 characters).  The condition is evaluated once per document, on the
document-wide total — not per page. -/
def ocrFallbackTriggered (ocrFlag : Bool) (pages : List Page) : Bool :=
  ocrFlag && (pages.isEmpty || decide (totalTextLen pages < 500))

/-- src/main.py lines 176-184: when the trigger fires, ask the OCR stage for
all pages; on OCR success replace the page list wholesale with
`[{page_number: i+1, text: ocr_texts[i]} ...]`; on OCR failure (the inner
try/except) keep the existing pages.  The OCR stage is an external call,
abstracted as its outcome. -/
def pagesAfterFallback (ocrFlag : Bool) (pages : List Page)
    (ocrResult : Except String (List String)) : List Page :=
  if ocrFallbackTriggered ocrFlag pages then
    match ocrResult with
    | .ok texts => (List.range texts.length).map
        (fun i => ⟨i + 1, texts.getD i ""⟩)
    | .error _ => pages
  else pages

/-- src/main.py lines 191-209, one candidate block: extract fields; a block
with an empty field mapping is dropped with `continue` before either the row
or the snippet is produced; otherwise one row and one snippet (text truncated
to 1000 characters) are emitted. -/
def processBlock (filename relpath date : String) (blk : Block) :
    List Row × List Snip :=
  let fields := extract_fields blk.text
  if fields.isEmpty then ([], [])
  else ([⟨filename, relpath, date, blk.page, fields⟩],
        [⟨filename, blk.page, pyTake 1000 blk.text⟩])

/-- Per-PDF inputs of one iteration of the main loop, with the outcomes of the
external calls made for that document.  `fault` models an exception raised
anywhere inside the per-document try block of src/main.py lines 174-213
(e.g. a corrupt PDF): `some msg` means the body raises and the outer except
catches it and continues with the next file. -/
structure PdfTask where
  name : String
  relpath : String
  extractResult : Except String (List Page)
  ocrResult : Except String (List String)
  fault : Option String
deriving Repr

/-- One iteration of the per-PDF loop (src/main.py lines 173-213).  A fault
anywhere in the body is caught by the outer except and yields nothing;
extract_pdf_text_per_page returning an error dict yields `res.get("pages", [])
= []`; then OCR fallback, candidate detection, and the per-block loop. -/
def processFile (ocrFlag : Bool) (task : PdfTask) : List Row × List Snip :=
  match task.fault with
  | some _ => ([], [])
  | none =>
    let pages0 := match task.extractResult with
      | .ok ps => ps
      | .error _ => []
    let pages := pagesAfterFallback ocrFlag pages0 task.ocrResult
    let cands := find_candidate_blocks pages
    let date := guess_meeting_date_from_name task.name
    cands.foldl (fun acc blk =>
      let r := processBlock task.name task.relpath date blk
      (acc.1 ++ r.1, acc.2 ++ r.2)) ([], [])

/-- Result of a whole run of main(): the process exit code together with the
accumulated rows (the CSV) and streamed snippets (the JSONL audit log). -/
structure RunResult where
  exitCode : Nat
  rows : List Row
  snips : List Snip
deriving Repr

/-- main() (src/main.py lines 143-218): no PDFs discovered exits with status
1 (line 160); otherwise, with the OCR flag set and the OCR modules
unavailable, exits with status 2 (line 169); otherwise every per-document
failure is caught inside the loop and the process ends with status 0. -/
def mainRun (tasks : List PdfTask) (ocrFlag ocrAvailable : Bool) : RunResult :=
  if tasks.isEmpty then ⟨1, [], []⟩
  else if ocrFlag && !ocrAvailable then ⟨2, [], []⟩
  else
    let acc := tasks.foldl (fun acc t =>
      let r := processFile ocrFlag t
      (acc.1 ++ r.1, acc.2 ++ r.2)) ([], [])
    ⟨0, acc.1, acc.2⟩

/-! ### src/automated-pipeline/extract_data.py -/

/-- A row of the `documents` ledger table (schema created by
extraction_testing.py, columns gemini_json / gemini_status added for
extract_data.py). -/
structure DocRow where
  pdf_id : String
  pdf_name : String
  ocr_text : String
  status : String
  gemini_status : Option String
  gemini_json : Option String
deriving Repr, DecidableEq

/-- The WHERE clause of fetch_records_to_process (extract_data.py lines
25-30): `status = 'ocr_complete' AND (gemini_status IS NULL OR gemini_status =
'gemini_error')`. -/
def fetchWhere (r : DocRow) : Bool :=
  r.status == "ocr_complete" &&
    (r.gemini_status == none || r.gemini_status == some "gemini_error")

/-- fetch_records_to_process (extract_data.py lines 22-31): the selected
rows, projected to the SELECTed columns (pdf_id, pdf_name, ocr_text). -/
def fetch_records_to_process (db : List DocRow) : List (String × String × String) :=
  (db.filter fetchWhere).map (fun r => (r.pdf_id, r.pdf_name, r.ocr_text))

/-- A structured result value, as far as the orchestrator inspects it: a JSON
object given by its key/value pairs (only key membership and the envelope
fields matter to the pipeline). -/
abbrev JDict := List (String × String)

/-- Python `"error" in d`. -/
def hasKey (k : String) (d : JDict) : Bool := d.any (fun p => p.1 == k)

/-- Outcome of the external generate_content call: the response text, or an
exception. -/
inductive GenOutcome where
  | ok (text : String)
  | raise (msg : String)
deriving Repr

/-- is_document_relevant (extract_data.py lines 34-63): the routing call is
given the first 3000 characters of the OCR text; if the call returns, the
answer is whether the upper-cased response text contains the substring YES;
if the call raises anything, the except block returns False.  The function is
total — it always resolves to a Bool. -/
def is_document_relevant (ocr_text : String)
    (call : String → GenOutcome) : Bool :=
  match call (pyTake 3000 ocr_text) with
  | .ok text => subOccurs "YES" (pyUpper text)
  | .raise _ => false

/-- The fenced-markup cleaning of extract_data.py line 78:
`response.text.strip().replace(backtick-fence-json, empty).replace(backtick-fence, empty)`. -/
def cleanJsonText (raw : String) : String :=
  pyReplace (pyReplace (pyStrip raw) "```json" "") "```" ""

/-- extract_structured_data (extract_data.py lines 66-82).  The external
generate_content call and the json.loads parse are abstracted as outcomes:
if the call raises, the except block returns the error envelope with
raw_response = "No response" (the response variable is not bound); if the
call returns but json.loads of the cleaned text raises, the envelope carries
the raw response text; otherwise the parsed object is returned as is. -/
def extract_structured_data (parse : String → Except String JDict)
    (call : String → GenOutcome) (ocr_text : String) : JDict :=
  match call ocr_text with
  | .raise msg => [("error", msg), ("raw_response", "No response")]
  | .ok raw =>
    match parse (cleanJsonText raw) with
    | .ok j => j
    | .error msg => [("error", msg), ("raw_response", raw)]

/-- The ledger-write payload/status pair one __main__ iteration commits for a
record (extract_data.py lines 110-121): a relevant document gets the engine
result with status gemini_error exactly when the result has an "error" key
and gemini_complete otherwise; a non-relevant (or failed-routing) document
gets the irrelevant marker object with status irrelevant. -/
def recordOutcome (routerCall : String → GenOutcome)
    (parse : String → Except String JDict) (genCall : String → GenOutcome)
    (ocr_text : String) : JDict × String :=
  if is_document_relevant ocr_text routerCall then
    let sd := extract_structured_data parse genCall ocr_text
    (sd, if hasKey "error" sd then "gemini_error" else "gemini_complete")
  else
    ([("status", "irrelevant")], "irrelevant")

/-- json.dumps, as far as the ledger model needs it: some serialized text
(always a value, never NULL). -/
def dumpsJ (d : JDict) : String :=
  String.join (d.map (fun p => p.1 ++ "=" ++ p.2 ++ ";"))

/-- update_database_with_result (extract_data.py lines 85-92):
`UPDATE documents SET gemini_json = ?, gemini_status = ? WHERE pdf_id = ?`
with the serialized result and the new status. -/
def update_database_with_result (db : List DocRow) (pdf_id : String)
    (json_result : JDict) (status : String) : List DocRow :=
  db.map (fun r =>
    if r.pdf_id == pdf_id then
      { r with gemini_json := some (dumpsJ json_result),
               gemini_status := some status }
    else r)

/-- One full __main__ iteration for one fetched record: compute the outcome
and commit it to the ledger. -/
def processRecord (routerCall : String → GenOutcome)
    (parse : String → Except String JDict) (genCall : String → GenOutcome)
    (db : List DocRow) (pdf_id ocr_text : String) : List DocRow :=
  let o := recordOutcome routerCall parse genCall ocr_text
  update_database_with_result db pdf_id o.1 o.2

/-! ### Helper lemmas -/

/-- Membership in a ledger after an UPDATE ... WHERE pdf_id = ?: a row either
was left untouched (its key differs), or it carries the written payload and
status. -/
theorem mem_update_database (db : List DocRow) (id : String) (p : JDict)
    (s : String) (r : DocRow) (h : r ∈ update_database_with_result db id p s) :
    (r ∈ db ∧ r.pdf_id ≠ id) ∨
    (r.gemini_json = some (dumpsJ p) ∧ r.gemini_status = some s) := by
  unfold update_database_with_result at h
  rcases List.mem_map.mp h with ⟨a, ha, hr⟩
  by_cases hid : a.pdf_id = id
  · right
    simp [hid] at hr
    simp [← hr]
  · left
    simp [hid] at hr
    exact ⟨hr ▸ ha, hr ▸ hid⟩

/-- The three possible ledger writes of one orchestrator iteration, and the
payload shape committed with each status. -/
theorem recordOutcome_cases (router : String → GenOutcome)
    (parse : String → Except String JDict) (gen : String → GenOutcome)
    (txt : String) :
    let o := recordOutcome router parse gen txt
    (o.2 = "irrelevant" ∧ o.1 = [("status", "irrelevant")]) ∨
    (o.2 = "gemini_error" ∧ hasKey "error" o.1 = true) ∨
    (o.2 = "gemini_complete" ∧ hasKey "error" o.1 = false) := by
  unfold recordOutcome
  by_cases hrel : is_document_relevant txt router
  · by_cases herr : hasKey "error" (extract_structured_data parse gen txt)
    · right; left; simp [hrel, herr]
    · right; right; simp [hrel, herr]
  · left; simp [hrel]

/-- Characterisation of the rows selected by the WHERE clause of
fetch_records_to_process. -/
theorem mem_filter_fetchWhere (db : List DocRow) (r : DocRow) :
    r ∈ db.filter fetchWhere ↔
      (r ∈ db ∧ r.status = "ocr_complete" ∧
        (r.gemini_status = none ∨ r.gemini_status = some "gemini_error")) := by
  simp [List.mem_filter, fetchWhere]

/-- C4: for every behaviour of the underlying routing call, the relevance
router resolves to a Bool (the embedding is a total Bool-valued function, the
image of the try/except that converts any raised exception into False); on a
raising call it returns False, and the orchestrator then commits the
irrelevant marker with analysis status irrelevant for the document. -/
theorem router_fail_safe (msg ocr : String)
    (parse : String → Except String JDict) (gen : String → GenOutcome)
    (call : String → GenOutcome) :
    (is_document_relevant ocr call = true ∨ is_document_relevant ocr call = false) ∧
    is_document_relevant ocr (fun _ => .raise msg) = false ∧
    recordOutcome (fun _ => .raise msg) parse gen ocr =
      ([("status", "irrelevant")], "irrelevant") := by
  refine ⟨?_, rfl, ?_⟩
  · cases h : is_document_relevant ocr call
    · right; rfl
    · left; rfl
  · unfold recordOutcome
    simp [is_document_relevant]

/-- C5: fetch_records_to_process selects exactly the rows with status
ocr_complete whose gemini_status is NULL or gemini_error; in particular no
row with gemini_status gemini_complete or irrelevant is selected, and the
fetched triples are the projection of exactly the selected rows. -/
theorem fetch_selects_ready (db : List DocRow) (r : DocRow) :
    (r ∈ db.filter fetchWhere ↔
      (r ∈ db ∧ r.status = "ocr_complete" ∧
        (r.gemini_status = none ∨ r.gemini_status = some "gemini_error"))) ∧
    (r ∈ db.filter fetchWhere →
      r.gemini_status ≠ some "gemini_complete" ∧
      r.gemini_status ≠ some "irrelevant") ∧
    fetch_records_to_process db =
      (db.filter fetchWhere).map (fun x => (x.pdf_id, x.pdf_name, x.ocr_text)) := by
  refine ⟨mem_filter_fetchWhere db r, ?_, rfl⟩
  intro h
  rcases ((mem_filter_fetchWhere db r).mp h).2.2 with h2 | h2 <;>
    simp [h2]

/-- C5 witness: a two-row ledger where the first row is ready (error status)
and is selected, while a completed row is not selected. -/
theorem fetch_selects_ready_witness :
    (⟨"a", "n", "t", "ocr_complete", some "gemini_error", none⟩ : DocRow) ∈
      List.filter fetchWhere
        [⟨"a", "n", "t", "ocr_complete", some "gemini_error", none⟩,
         ⟨"b", "n", "t", "ocr_complete", some "gemini_complete", some "j"⟩] ∧
    (⟨"a", "n", "t", "ocr_complete", some "gemini_error", none⟩ : DocRow).gemini_status ≠
      some "gemini_complete" := by
  have h := fetch_selects_ready
    [⟨"a", "n", "t", "ocr_complete", some "gemini_error", none⟩,
     ⟨"b", "n", "t", "ocr_complete", some "gemini_complete", some "j"⟩]
    ⟨"a", "n", "t", "ocr_complete", some "gemini_error", none⟩
  have hmem := h.1.mpr (by decide)
  exact ⟨hmem, (h.2.1 hmem).1⟩

/-- C9: when the routing call returns a response without raising, the router
answers True exactly when the upper-cased response text contains the
substring YES; in particular the response text containing both an
affirmative and a negative token resolves to relevant. -/
theorem router_yes_substring (t ocr : String) :
    is_document_relevant ocr (fun _ => .ok t) = subOccurs "YES" (pyUpper t) ∧
    is_document_relevant ocr (fun _ => .ok "YES or NO") = true := by
  exact ⟨rfl, rfl⟩

/-- C1 counterexample: processing a record whose routing call fails commits
analysis status irrelevant together with a NON-null gemini_json payload (the
serialized irrelevant marker), so a record with status irrelevant does carry
a stored payload, contrary to the claimed iff-invariant. -/
theorem ledger_payload_counterexample :
    processRecord (fun _ => .raise "timeout") (fun _ => .error "unused")
        (fun _ => .raise "unused")
        [⟨"d1", "doc", "body", "ocr_complete", none, none⟩] "d1" "body" =
      [⟨"d1", "doc", "body", "ocr_complete", some "irrelevant",
        some "status=irrelevant;"⟩] ∧
    (some "status=irrelevant;" : Option String) ≠ none := by
  exact ⟨rfl, by decide⟩

/-- C1 amended: every ledger write of the orchestrator stores a non-null
serialized payload together with its status, for all three statuses — the
irrelevant status stores the irrelevant marker object, gemini_error stores a
payload containing an error key, gemini_complete stores one without an error
key.  Payload presence is therefore not equivalent to status
gemini_complete. -/
theorem ledger_payload_amended (router : String → GenOutcome)
    (parse : String → Except String JDict) (gen : String → GenOutcome)
    (txt : String) (db : List DocRow) (id : String) :
    (let o := recordOutcome router parse gen txt
     (o.2 = "irrelevant" ∧ o.1 = [("status", "irrelevant")]) ∨
     (o.2 = "gemini_error" ∧ hasKey "error" o.1 = true) ∨
     (o.2 = "gemini_complete" ∧ hasKey "error" o.1 = false)) ∧
    (∀ p s r, r ∈ update_database_with_result db id p s →
      (r ∈ db ∧ r.pdf_id ≠ id) ∨
      (r.gemini_json ≠ none ∧ r.gemini_status = some s)) := by
  refine ⟨recordOutcome_cases router parse gen txt, ?_⟩
  intro p s r hr
  rcases mem_update_database db id p s r hr with h | h
  · exact Or.inl h
  · exact Or.inr ⟨by simp [h.1], h.2⟩

/-- C1 amended witness: the concrete irrelevant-path write of the
counterexample record, with the updated row exhibiting a stored payload. -/
theorem ledger_payload_amended_witness :
    ((recordOutcome (fun _ => GenOutcome.raise "timeout")
        (fun _ => Except.error "unused") (fun _ => GenOutcome.raise "unused")
        "body").2 = "irrelevant" ∧
      (recordOutcome (fun _ => GenOutcome.raise "timeout")
        (fun _ => Except.error "unused") (fun _ => GenOutcome.raise "unused")
        "body").1 = [("status", "irrelevant")]) ∧
    ((⟨"d1", "doc", "body", "ocr_complete", some "irrelevant",
        some "status=irrelevant;"⟩ : DocRow).gemini_json ≠ none ∧
      (⟨"d1", "doc", "body", "ocr_complete", some "irrelevant",
        some "status=irrelevant;"⟩ : DocRow).gemini_status = some "irrelevant") := by
  have h := ledger_payload_amended (fun _ => GenOutcome.raise "timeout")
    (fun _ => Except.error "unused") (fun _ => GenOutcome.raise "unused") "body"
    [⟨"d1", "doc", "body", "ocr_complete", none, none⟩] "d1"
  refine ⟨?_, ?_⟩
  · rcases h.1 with h1 | h1 | h1
    · exact h1
    · exact absurd h1.1 (by decide)
    · exact absurd h1.1 (by decide)
  · have h2 := h.2 [("status", "irrelevant")] "irrelevant"
      ⟨"d1", "doc", "body", "ocr_complete", some "irrelevant",
        some "status=irrelevant;"⟩ (by decide)
    rcases h2 with h2 | h2
    · exact absurd rfl h2.2
    · exact h2

/-- C7: on a raising service call the delegated engine returns the error
envelope with the "No response" placeholder; on a successful call whose
cleaned text fails to parse it returns the envelope carrying the raw
response; both envelopes contain the error and raw_response keys; and for a
document the router deems relevant, the orchestrator commits status
gemini_error exactly when the engine result contains an error key and
gemini_complete otherwise. -/
theorem engine_error_envelope (parse : String → Except String JDict)
    (gen router : String → GenOutcome) (msg raw txt : String) :
    (extract_structured_data parse (fun _ => .raise msg) txt =
        [("error", msg), ("raw_response", "No response")] ∧
      hasKey "error" (extract_structured_data parse (fun _ => .raise msg) txt) = true ∧
      hasKey "raw_response" (extract_structured_data parse (fun _ => .raise msg) txt) = true) ∧
    (parse (cleanJsonText raw) = .error msg →
      extract_structured_data parse (fun _ => .ok raw) txt =
        [("error", msg), ("raw_response", raw)] ∧
      hasKey "error" (extract_structured_data parse (fun _ => .ok raw) txt) = true ∧
      hasKey "raw_response" (extract_structured_data parse (fun _ => .ok raw) txt) = true) ∧
    (is_document_relevant txt router = true →
      recordOutcome router parse gen txt =
        (extract_structured_data parse gen txt,
         if hasKey "error" (extract_structured_data parse gen txt)
         then "gemini_error" else "gemini_complete")) := by
  refine ⟨⟨rfl, rfl, rfl⟩, ?_, ?_⟩
  · intro hp
    unfold extract_structured_data
    simp [hp, hasKey]
  · intro hrel
    unfold recordOutcome
    simp [hrel]

/-- C7 witness: a concrete parse failure on a fenced response, and the
orchestrator status at a concrete relevant document. -/
theorem engine_error_envelope_witness :
    (extract_structured_data (fun _ => Except.error "bad json")
        (fun _ => GenOutcome.ok "```json oops```") "body" =
      [("error", "bad json"), ("raw_response", "```json oops```")]) ∧
    (recordOutcome (fun _ => GenOutcome.ok "YES")
        (fun _ => Except.error "bad json")
        (fun _ => GenOutcome.ok "```json oops```") "body" =
      (extract_structured_data (fun _ => Except.error "bad json")
        (fun _ => GenOutcome.ok "```json oops```") "body",
       if hasKey "error" (extract_structured_data (fun _ => Except.error "bad json")
           (fun _ => GenOutcome.ok "```json oops```") "body")
       then "gemini_error" else "gemini_complete")) := by
  have h := engine_error_envelope (fun _ => Except.error "bad json")
    (fun _ => GenOutcome.ok "```json oops```") (fun _ => GenOutcome.ok "YES")
    "bad json" "```json oops```" "body"
  exact ⟨(h.2.1 rfl).1, h.2.2 rfl⟩

/-- C2 counterexample: the page text below passes the topical keyword filter
(it contains Solar), so it yields a candidate block; extract_fields on the
block is empty; and the per-block loop of main() emits zero output rows AND
zero audit snippets for it — the `continue` on an empty field mapping is
executed before the snippet write, refuting that exactly one snippet is
emitted for such a block. -/
theorem empty_fields_snippet_counterexample :
    find_candidate_blocks [⟨1, "Solar panels for sale"⟩] =
      [⟨1, "Solar panels for sale"⟩] ∧
    extract_fields "Solar panels for sale" = [] ∧
    processBlock "f.pdf" "f.pdf" "" ⟨1, "Solar panels for sale"⟩ = ([], []) := by
  refine ⟨by decide, by decide, by decide⟩

/-- C2 amended: a candidate block whose field mapping is empty produces zero
output rows and zero audit snippets (the snippet write is skipped together
with the row); in general the per-block loop emits exactly one snippet per
output row, so rows and snippets are in bijection. -/
theorem empty_fields_drop_amended (filename relpath date : String) (blk : Block) :
    (extract_fields blk.text = [] →
      processBlock filename relpath date blk = ([], [])) ∧
    (processBlock filename relpath date blk).1.length =
      (processBlock filename relpath date blk).2.length := by
  constructor
  · intro h
    simp [processBlock, h]
  · unfold processBlock
    by_cases h : (extract_fields blk.text).isEmpty <;> simp [h]

/-- C2 amended witness: the concrete empty-fields candidate block of the
counterexample, processed to zero rows and zero snippets. -/
theorem empty_fields_drop_amended_witness :
    processBlock "f.pdf" "f.pdf" "" ⟨1, "Solar panels for sale"⟩ = ([], []) := by
  exact (empty_fields_drop_amended "f.pdf" "f.pdf" "" ⟨1, "Solar panels for sale"⟩).1
    (by decide)

/-- C6 counterexample: with a non-empty input set, the OCR flag set and the
OCR modules unavailable, the run terminates with exit status 2 — a non-zero
exit on a non-empty input set, refuting that an empty input set is the only
non-zero-exit condition. -/
theorem exit_status_counterexample :
    ([(⟨"a.pdf", "a.pdf", Except.ok [], Except.error "x", none⟩ : PdfTask)].isEmpty
        = false) ∧
    (mainRun [⟨"a.pdf", "a.pdf", Except.ok [], Except.error "x", none⟩]
        true false).exitCode = 2 ∧ (2 : Nat) ≠ 0 := by
  exact ⟨rfl, rfl, by decide⟩

/-- C6 amended: the run exits non-zero exactly when the input set is empty
(status 1) or the OCR flag is set while the OCR modules are unavailable
(status 2); with a non-empty input set and available (or unrequested) OCR the
exit status is 0 for every combination of per-document outcomes — every
per-document failure is caught inside the loop and leaves the exit code
unaffected. -/
theorem exit_status_amended (tasks : List PdfTask) (ocrFlag ocrAvailable : Bool) :
    ((mainRun tasks ocrFlag ocrAvailable).exitCode ≠ 0 ↔
      (tasks = [] ∨ (ocrFlag = true ∧ ocrAvailable = false))) ∧
    (tasks = [] → (mainRun tasks ocrFlag ocrAvailable).exitCode = 1) ∧
    (tasks ≠ [] → ocrFlag = true → ocrAvailable = false →
      (mainRun tasks ocrFlag ocrAvailable).exitCode = 2) ∧
    (tasks ≠ [] → (ocrFlag = true → ocrAvailable = true) →
      (mainRun tasks ocrFlag ocrAvailable).exitCode = 0) := by
  unfold mainRun
  rcases tasks with _ | ⟨t, ts⟩
  · simp
  · cases ocrFlag <;> cases ocrAvailable <;> simp

/-- C6 amended witness: a singleton input whose document processing fails
(both the parse and the OCR call error out), run without the OCR flag: the
exit status is 0. -/
theorem exit_status_amended_witness :
    (mainRun [⟨"a.pdf", "a.pdf", Except.error "corrupt", Except.error "x", some "boom"⟩]
        false true).exitCode = 0 := by
  exact (exit_status_amended
    [⟨"a.pdf", "a.pdf", Except.error "corrupt", Except.error "x", some "boom"⟩]
    false true).2.2.2 (by simp) (by simp)

/-- The per-page substitution condition asserted by the claim, stated from
the spec words for comparison with the code: with the OCR flag set, a page's
text is replaced by OCR output exactly when that page's own extracted text is
below the 500-character threshold. -/
def specPerPageOCR (ocrFlag : Bool) (p : Page) : Bool :=
  ocrFlag && decide (p.text.data.length < 500)

/-- A 600-character page text, used to push a document total over the OCR
threshold. -/
def longPageText : String := String.mk (List.replicate 600 'a')

set_option maxRecDepth 8000 in
/-- C8 counterexample: a document whose first page has no text at all (far
below the threshold) but whose second page brings the document total to 600
characters: the code's trigger — which tests the document-wide total, not the
page — does not fire, and no page is substituted, although the claimed
per-page condition holds for page 1. -/
theorem ocr_condition_counterexample :
    specPerPageOCR true ⟨1, ""⟩ = true ∧
    ocrFallbackTriggered true [⟨1, ""⟩, ⟨2, longPageText⟩] = false ∧
    pagesAfterFallback true [⟨1, ""⟩, ⟨2, longPageText⟩]
        (Except.ok ["ocr page one", "ocr page two"]) =
      [⟨1, ""⟩, ⟨2, longPageText⟩] := by
  refine ⟨rfl, by decide, ?_⟩
  unfold pagesAfterFallback
  rw [show ocrFallbackTriggered true [⟨1, ""⟩, ⟨2, longPageText⟩] = false by decide]
  simp

/-- C8 amended: the OCR fallback condition is evaluated once per document on
the document-wide total: with the OCR flag set it fires exactly when the page
list is empty or the total directly-extracted text across all pages is below
500 characters; when it does not fire the pages are kept unchanged, and when
it fires the whole page list is replaced by the OCR output (or kept on OCR
failure). -/
theorem ocr_condition_amended (ocrFlag : Bool) (pages : List Page)
    (res : Except String (List String)) :
    (ocrFallbackTriggered ocrFlag pages = true ↔
      (ocrFlag = true ∧ (pages = [] ∨ totalTextLen pages < 500))) ∧
    (ocrFallbackTriggered ocrFlag pages = false →
      pagesAfterFallback ocrFlag pages res = pages) ∧
    (∀ texts, ocrFallbackTriggered ocrFlag pages = true → res = .ok texts →
      pagesAfterFallback ocrFlag pages res =
        (List.range texts.length).map (fun i => ⟨i + 1, texts.getD i ""⟩)) ∧
    (∀ e, res = .error e → pagesAfterFallback ocrFlag pages res = pages) := by
  refine ⟨?_, ?_, ?_, ?_⟩
  · simp [ocrFallbackTriggered, List.isEmpty_iff]
  · intro h
    simp [pagesAfterFallback, h]
  · intro texts ht hr
    simp [pagesAfterFallback, ht, hr]
  · intro e hr
    unfold pagesAfterFallback
    by_cases h : ocrFallbackTriggered ocrFlag pages <;> simp [h, hr]

/-- C8 amended witness: a one-page document with empty text, OCR flag set:
the trigger fires (total 0 below 500) and OCR output replaces the page
list. -/
theorem ocr_condition_amended_witness :
    (ocrFallbackTriggered true [⟨1, ""⟩] = true ↔
      (true = true ∧ ([(⟨1, ""⟩ : Page)] = [] ∨ totalTextLen [⟨1, ""⟩] < 500))) ∧
    pagesAfterFallback true [⟨1, ""⟩] (Except.ok ["recovered"]) =
      (List.range ["recovered"].length).map
        (fun i => ⟨i + 1, ["recovered"].getD i ""⟩) := by
  have h := ocr_condition_amended true [⟨1, ""⟩] (Except.ok ["recovered"])
  exact ⟨h.1, h.2.2.1 ["recovered"] (by decide) rfl⟩

/-- The end-to-end scenario page text of the claim, taken literally. -/
def c3Text : String :=
  "Applicant: Acme Solar LLC ... 45 MW solar facility on 120 acres ... Parcel: 12-34-56 ... The Board recommended approval ... Ayes: 4 Nays: 1"

set_option maxRecDepth 10000 in
set_option maxHeartbeats 4000000 in
/-- Evaluation of extract_fields on the scenario text: the greedy character
class of the project pattern runs past Acme Solar LLC up to the colon of the
Parcel label, and the to-end-of-line captures of location and ayes absorb the
rest of the single-line text. -/
theorem c3_fields_eval : extract_fields c3Text =
    [("project_or_applicant",
      .str "Acme Solar LLC ... 45 MW solar facility on 120 acres ... Parcel"),
     ("mw", .str "45"),
     ("acres", .str "120"),
     ("location",
      .str "12-34-56 ... The Board recommended approval ... Ayes: 4 Nays: 1"),
     ("outcome_phrase", .str "recommended approval"),
     ("ayes", .str "4 Nays: 1"),
     ("nays", .str "1")] := by
  decide

set_option maxRecDepth 10000 in
set_option maxHeartbeats 4000000 in
/-- Candidate detection on the scenario text: exactly one candidate block,
the page itself (the text is already space-normalised). -/
theorem c3_cands_eval :
    find_candidate_blocks [⟨1, c3Text⟩] = [⟨1, c3Text⟩] := by
  decide

/-- C3 counterexample: on the scenario page text (taken literally) the code
yields one candidate block, but extract_fields does NOT give
project_or_applicant = Acme Solar LLC (the greedy character class, which
admits spaces, digits and dots, captures up to the next colon), nor ayes = 4
(the to-end-of-line capture also absorbs the Nays segment). -/
theorem end_to_end_counterexample :
    find_candidate_blocks [⟨1, c3Text⟩] = [⟨1, c3Text⟩] ∧
    (extract_fields c3Text).lookup "project_or_applicant" ≠
      some (.str "Acme Solar LLC") ∧
    (extract_fields c3Text).lookup "ayes" ≠ some (.str "4") := by
  refine ⟨c3_cands_eval, ?_, ?_⟩ <;> rw [c3_fields_eval] <;> decide

/-- C3 amended: on the literal scenario text there is exactly one candidate
block, and extract_fields yields mw 45, acres 120, a location containing
12-34-56, outcome_phrase "recommended approval" and nays 1 as claimed, but
project_or_applicant is the greedy capture running to the Parcel label and
ayes is the whole rest of the line "4 Nays: 1". -/
theorem end_to_end_amended :
    find_candidate_blocks [⟨1, c3Text⟩] = [⟨1, c3Text⟩] ∧
    (extract_fields c3Text).lookup "project_or_applicant" =
      some (.str "Acme Solar LLC ... 45 MW solar facility on 120 acres ... Parcel") ∧
    (extract_fields c3Text).lookup "mw" = some (.str "45") ∧
    (extract_fields c3Text).lookup "acres" = some (.str "120") ∧
    ((extract_fields c3Text).lookup "location").any
      (fun v => match v with
        | .str s => subOccurs "12-34-56" s
        | .strs _ => false) = true ∧
    (extract_fields c3Text).lookup "outcome_phrase" =
      some (.str "recommended approval") ∧
    (extract_fields c3Text).lookup "ayes" = some (.str "4 Nays: 1") ∧
    (extract_fields c3Text).lookup "nays" = some (.str "1") := by
  refine ⟨c3_cands_eval, ?_, ?_, ?_, ?_, ?_, ?_, ?_⟩ <;>
    rw [c3_fields_eval] <;> decide

/-! ### Structural lemmas about the matcher (for the mw capture bound) -/

/-- A regex containing no capture group. -/
def grpFree : RE → Bool
  | .lit _ => true
  | .cls _ => true
  | .rep _ _ _ => true
  | .wb => true
  | .cat a b => grpFree a && grpFree b
  | .alt a b => grpFree a && grpFree b
  | .opt a => grpFree a
  | .grp _ _ => false

/-- Empty candidate list when the lower repetition bound exceeds the upper
one. -/
theorem descRange_nil (lo hi : Nat) (h : ¬ lo ≤ hi) : descRange lo hi = [] := by
  unfold descRange
  have : hi + 1 - lo = 0 := by omega
  simp [this]

/-- Membership characterisation for greedy class repetition. -/
theorem rep_mem_iff {p : Char → Bool} {lo : Nat} {hi : Option Nat}
    {st : MState} {res : List Char × MState} :
    res ∈ matchRE (.rep p lo hi) st ↔
      ∃ k ∈ descRange lo
          (match hi with
           | some hh => min hh (takeRun p st.rest)
           | none => takeRun p st.rest),
        res = (st.rest.take k,
          ⟨updPrev (st.rest.take k) st.prev, st.rest.drop k, st.caps⟩) := by
  simp only [matchRE]
  split
  · simp only [List.mem_map]
    constructor
    · rintro ⟨k, hk, hres⟩
      exact ⟨k, hk, hres.symm⟩
    · rintro ⟨k, hk, hres⟩
      exact ⟨k, hk, hres.symm⟩
  · rename_i hle
    rw [descRange_nil _ _ hle]
    simp

/-- Matching a group-free regex leaves the recorded captures unchanged. -/
theorem caps_of_grpFree (r : RE) (hg : grpFree r = true) :
    ∀ (st : MState) (res : List Char × MState),
      res ∈ matchRE r st → res.2.caps = st.caps := by
  induction r with
  | lit s =>
    intro st res h
    unfold matchRE at h
    cases hl : litTake s.data st.rest with
    | none => simp [hl] at h
    | some v =>
      rcases v with ⟨con, rst⟩
      simp [hl] at h
      subst h
      rfl
  | cls p =>
    intro st res h
    unfold matchRE at h
    cases hr : st.rest with
    | nil => simp [hr] at h
    | cons c rst =>
      by_cases hp : p c = true <;> simp [hr, hp] at h
      subst h
      rfl
  | rep p lo hi =>
    intro st res h
    rcases rep_mem_iff.mp h with ⟨k, _, hres⟩
    simp [hres]
  | cat a b iha ihb =>
    intro st res h
    simp only [grpFree, Bool.and_eq_true] at hg
    unfold matchRE at h
    simp only [List.mem_flatMap, List.mem_map] at h
    rcases h with ⟨r1, hr1, r2, hr2, hres⟩
    have h1 := iha hg.1 st r1 hr1
    have h2 := ihb hg.2 r1.2 r2 hr2
    rw [← hres]
    simpa [h2] using h1
  | alt a b iha ihb =>
    intro st res h
    simp only [grpFree, Bool.and_eq_true] at hg
    unfold matchRE at h
    rcases List.mem_append.mp h with h | h
    · exact iha hg.1 st res h
    · exact ihb hg.2 st res h
  | opt a iha =>
    intro st res h
    simp only [grpFree] at hg
    unfold matchRE at h
    rcases List.mem_append.mp h with h | h
    · exact iha hg st res h
    · simp at h; simp [h]
  | grp i a iha =>
    intro st res h
    simp [grpFree] at hg
  | wb =>
    intro st res h
    unfold matchRE at h
    by_cases hb : ((match st.prev with | some c => isWordCh c | none => false) !=
        (match st.rest with | c :: _ => isWordCh c | [] => false)) = true
    · simp [hb] at h; simp [h]
    · simp [hb] at h

/-- A successful left-to-right scan commits to a match of the pattern at some
position (with an empty initial capture list). -/
theorem searchAux_mem (r : RE) :
    ∀ (l : List Char) (prev : Option Char) (res : List Char × MState),
      searchAux r prev l = some res →
      ∃ prev2 l2, res ∈ matchRE r ⟨prev2, l2, []⟩ := by
  intro l
  induction l with
  | nil =>
    intro prev res h
    unfold searchAux at h
    cases hm : matchRE r ⟨prev, [], []⟩ with
    | nil => simp [hm] at h
    | cons a t =>
      simp [hm] at h
      exact ⟨prev, [], by simp [hm, ← h]⟩
  | cons c rst ih =>
    intro prev res h
    unfold searchAux at h
    cases hm : matchRE r ⟨prev, c :: rst, []⟩ with
    | nil =>
      simp [hm] at h
      exact ih (some c) res h
    | cons a t =>
      simp [hm] at h
      exact ⟨prev, c :: rst, by simp [hm, ← h]⟩

/-- Membership in the greedy candidate-count list. -/
theorem descRange_mem (lo hi k : Nat) (h : k ∈ descRange lo hi) :
    lo ≤ k ∧ k ≤ hi := by
  unfold descRange at h
  simp only [List.mem_map, List.mem_range] at h
  rcases h with ⟨i, hi2, hk⟩
  omega

/-- Characters within the maximal run all satisfy the class predicate. -/
theorem takeRun_take (p : Char → Bool) :
    ∀ (l : List Char) (k : Nat), k ≤ takeRun p l →
      ∀ c ∈ l.take k, p c = true := by
  intro l
  induction l with
  | nil => intro k _ c hc; simp at hc
  | cons c0 t ih =>
    intro k hk c hc
    by_cases hp : p c0 = true
    · simp [takeRun, hp] at hk
      cases k with
      | zero => simp at hc
      | succ k2 =>
        simp [List.take] at hc
        rcases hc with hc | hc
        · simpa [hc] using hp
        · exact ih k2 (by omega) c hc
    · simp [takeRun, hp] at hk
      subst hk
      simp at hc

/-- Inversion for greedy class repetition: the consumed text is a prefix of
the input of length between the bounds, all of whose characters are in the
class. -/
theorem rep_consumed {p : Char → Bool} {lo : Nat} {hi : Option Nat}
    {st : MState} {res : List Char × MState}
    (h : res ∈ matchRE (.rep p lo hi) st) :
    ∃ k, res.1 = st.rest.take k ∧ lo ≤ k ∧
      (∀ hh, hi = some hh → k ≤ hh) ∧ (∀ c ∈ res.1, p c = true) ∧
      res.2.rest = st.rest.drop k := by
  rcases rep_mem_iff.mp h with ⟨k, hk, hres⟩
  have hb := descRange_mem _ _ _ hk
  have hkrun : k ≤ takeRun p st.rest := by
    rcases hi with _ | hh <;> simp at hb <;> omega
  refine ⟨k, by simp [hres], hb.1, ?_, ?_, by simp [hres]⟩
  · intro hh hhi
    subst hhi
    simp at hb
    omega
  · rw [show res.1 = st.rest.take k by simp [hres]]
    exact takeRun_take p st.rest k hkrun

/-- Inversion for a capture group. -/
theorem grp_mem {i : Nat} {a : RE} {st : MState} {res : List Char × MState}
    (h : res ∈ matchRE (.grp i a) st) :
    ∃ q ∈ matchRE a st, res.1 = q.1 ∧ res.2.caps = (i, q.1) :: q.2.caps := by
  unfold matchRE at h
  simp only [List.mem_map] at h
  rcases h with ⟨q, hq, hres⟩
  exact ⟨q, hq, by simp [← hres]⟩

/-- Inversion for concatenation. -/
theorem cat_mem {a b : RE} {st : MState} {res : List Char × MState}
    (h : res ∈ matchRE (.cat a b) st) :
    ∃ r1 ∈ matchRE a st, ∃ r2 ∈ matchRE b r1.2,
      res.1 = r1.1 ++ r2.1 ∧ res.2 = r2.2 := by
  unfold matchRE at h
  simp only [List.mem_flatMap, List.mem_map] at h
  rcases h with ⟨r1, hr1, r2, hr2, hres⟩
  exact ⟨r1, hr1, r2, hr2, by simp [← hres]⟩

/-- Inversion for the greedy option. -/
theorem opt_mem {a : RE} {st : MState} {res : List Char × MState}
    (h : res ∈ matchRE (.opt a) st) :
    res ∈ matchRE a st ∨ res = ([], st) := by
  unfold matchRE at h
  rcases List.mem_append.mp h with h | h
  · exact Or.inl h
  · simp at h; exact Or.inr (by simp [h])

/-- Inversion for the literal dot: it consumes exactly one character that is
case-insensitively a dot. -/
theorem lit_dot_mem {st : MState} {res : List Char × MState}
    (h : res ∈ matchRE (.lit ".") st) :
    ∃ c, ciEq '.' c = true ∧ res.1 = [c] := by
  unfold matchRE at h
  cases hr : st.rest with
  | nil => simp [hr, litTake] at h
  | cons c rst =>
    by_cases hc : ciEq '.' c = true
    · refine ⟨c, hc, ?_⟩
      simp [hr, litTake, hc] at h
      subst h
      rfl
    · simp [hr, litTake, hc] at h

/-- A character that is case-insensitively a dot is not a digit. -/
theorem ciEq_dot_not_digit (c : Char) (h : ciEq '.' c = true) :
    isDigitCh c = false := by
  by_contra hd
  simp only [Bool.not_eq_false] at hd
  simp only [isDigitCh, Bool.and_eq_true, decide_eq_true_eq] at hd
  have hdot : ('.' : Char).toNat = 46 := rfl
  simp only [ciEq, lowerN, hdot, beq_iff_eq] at h
  rw [if_neg (by omega), if_neg (by omega)] at h
  omega

/-- takeWhile distributes over an append whose left part satisfies the
predicate throughout. -/
theorem takeWhile_append_all (p : Char → Bool) (d f : List Char)
    (hall : ∀ c ∈ d, p c = true) :
    (d ++ f).takeWhile p = d ++ f.takeWhile p := by
  induction d with
  | nil => simp
  | cons c t ih =>
    have hc : p c = true := hall c (by simp)
    simp only [List.cons_append, List.takeWhile_cons, hc, if_true]
    rw [ih (fun x hx => hall x (by simp [hx]))]

/-- takeWhile never lengthens a list. -/
theorem takeWhile_length_le (p : Char → Bool) :
    ∀ (l : List Char), (l.takeWhile p).length ≤ l.length := by
  intro l
  induction l with
  | nil => simp
  | cons c t ih =>
    by_cases hc : p c = true
    · simp only [List.takeWhile_cons, hc, if_true, List.length_cons]
      omega
    · simp [List.takeWhile_cons, hc]

/-- Any match of the mw pattern records exactly one capture, whose leading
digit run has length at most 3 (the bound of the first repetition; the
optional part begins with a dot, which stops the digit run). -/
theorem mw_caps {prev : Option Char} {l : List Char} {res : List Char × MState}
    (h : res ∈ matchRE mwRE ⟨prev, l, []⟩) :
    ∃ cap, res.2.caps = [(1, cap)] ∧ (cap.takeWhile isDigitCh).length ≤ 3 := by
  have hmw : mwRE = .cat
      (.grp 1 (.cat (.rep isDigitCh 1 (some 3))
        (.opt (.cat (.lit ".") (.rep isDigitCh 1 none)))))
      (.cat wsStar (.cat (.lit "MW") .wb)) := rfl
  rw [hmw] at h
  obtain ⟨r1, hr1, r2, hr2, hcon, hst⟩ := cat_mem h
  obtain ⟨q, hq, hq1, hqc⟩ := grp_mem hr1
  have htail : r2.2.caps = r1.2.caps :=
    caps_of_grpFree (.cat wsStar (.cat (.lit "MW") .wb)) rfl _ _ hr2
  have hqcaps : q.2.caps = [] :=
    caps_of_grpFree (.cat (.rep isDigitCh 1 (some 3))
      (.opt (.cat (.lit ".") (.rep isDigitCh 1 none)))) rfl _ _ hq
  obtain ⟨s1, hs1, s2, hs2, hq12, _⟩ := cat_mem hq
  obtain ⟨k, hs1con, hk1, hk3, hs1all, _⟩ := rep_consumed hs1
  have hk : k ≤ 3 := hk3 3 rfl
  have hd3 : s1.1.length ≤ 3 := by
    rw [hs1con]
    calc (List.take k _).length ≤ k := by simp
    _ ≤ 3 := hk
  refine ⟨q.1, ?_, ?_⟩
  · rw [hst, htail, hqc, hqcaps]
  · rw [hq12]
    rcases opt_mem hs2 with hin | heq
    · obtain ⟨t1, ht1, t2, ht2, hs2con, _⟩ := cat_mem hin
      obtain ⟨c, hci, ht1con⟩ := lit_dot_mem ht1
      rw [hs2con, ht1con]
      rw [takeWhile_append_all _ _ _ hs1all]
      have hnd : isDigitCh c = false := ciEq_dot_not_digit c hci
      simp only [List.cons_append, List.takeWhile_cons, hnd]
      simpa using hd3
    · have : s2.1 = [] := by rw [heq]
      rw [this, List.append_nil]
      calc (s1.1.takeWhile isDigitCh).length ≤ s1.1.length :=
        takeWhile_length_le _ _
      _ ≤ 3 := hd3

/-- The group-1 capture of a successful mw search has a leading digit run of
length at most 3. -/
theorem reGroup_mw_bound (text v : String)
    (h : reGroup mwRE 1 text = some v) :
    (v.data.takeWhile isDigitCh).length ≤ 3 := by
  unfold reGroup reSearch at h
  cases hs : searchAux mwRE none text.data with
  | none => rw [hs] at h; simp at h
  | some res =>
    rw [hs] at h
    obtain ⟨prev2, l2, hmem⟩ := searchAux_mem mwRE text.data none res hs
    obtain ⟨cap, hcaps, hlen⟩ := mw_caps hmem
    rcases res with ⟨con, st⟩
    have hc2 : st.caps = [(1, cap)] := hcaps
    dsimp only at h
    rw [hc2] at h
    simp [List.find?] at h
    rw [← h]
    simpa using hlen

/-- Lookup passes over an association-list segment whose keys all differ from
the looked-up key. -/
theorem lookup_skip (l2 : List (String × FVal)) :
    ∀ (l : List (String × FVal)), (∀ p ∈ l, ¬ p.1 = "mw") →
      List.lookup "mw" (l ++ l2) = List.lookup "mw" l2 := by
  intro l
  induction l with
  | nil => intro _; rfl
  | cons a t ih =>
    intro h
    rcases a with ⟨k, v⟩
    have ha : ¬ k = "mw" := h ⟨k, v⟩ (by simp)
    have hb : ("mw" == k) = false := by
      simp only [beq_eq_false_iff_ne, ne_eq]
      exact fun hh => ha hh.symm
    simp [List.lookup, hb, ih (fun p hp => h p (by simp [hp]))]

/-- The mw entry of the extracted field mapping is exactly the group-1
capture of the mw pattern search (no other field writes the mw key). -/
theorem lookup_mw_eq (text : String) :
    (extract_fields text).lookup "mw" = (reGroup mwRE 1 text).map FVal.str := by
  simp only [extract_fields, List.append_assoc]
  rw [lookup_skip _ _ (by cases h : reGroup projRE 2 text <;> simp)]
  cases h2 : reGroup mwRE 1 text with
  | some v => simp [List.lookup]
  | none =>
    simp only [List.nil_append, Option.map_none']
    rw [lookup_skip _ _ (by cases h : reGroup acresRE 1 text <;> simp)]
    rw [lookup_skip _ _ (by cases h : reGroup locRE 2 text <;> simp)]
    rw [lookup_skip _ _ (by cases h : reGroup0 outcomeRE text <;> simp)]
    rw [lookup_skip _ _ (by cases h : reGroup0 voteRE text <;> simp)]
    rw [lookup_skip _ _ (by cases h : reGroup ayesRE 2 text <;> simp)]
    rw [lookup_skip _ _ (by cases h : reGroup naysRE 2 text <;> simp)]
    by_cases hr : (((reFindIter reasonRE text).take 3).map pyStrip).isEmpty <;>
      simp [hr, List.lookup]

/-- C10: whenever extract_fields returns an mw entry, the value is the
capture of a pattern of one to three digits with an optional fractional part,
so its leading digit run — the digits before any decimal point — has length
at most 3; in particular on a four-digit number preceding MW the extracted
value is the trailing three-digit substring 500, not the full 1500. -/
theorem mw_digits_bound :
    (∀ text v, (extract_fields text).lookup "mw" = some (.str v) →
      (v.data.takeWhile isDigitCh).length ≤ 3) ∧
    (extract_fields "A 1500 MW plant").lookup "mw" = some (.str "500") := by
  constructor
  · intro text v h
    rw [lookup_mw_eq] at h
    cases hg : reGroup mwRE 1 text with
    | none => rw [hg] at h; simp at h
    | some w =>
      rw [hg] at h
      simp only [Option.map_some', Option.some.injEq, FVal.str.injEq] at h
      subst h
      exact reGroup_mw_bound text w hg
  · decide

/-- C10 witness: the concrete 1500 MW input, with the extracted value 500 and
its digit-run bound obtained from the theorem. -/
theorem mw_digits_bound_witness :
    (extract_fields "A 1500 MW plant").lookup "mw" = some (FVal.str "500") ∧
    (("500" : String).data.takeWhile isDigitCh).length ≤ 3 := by
  exact ⟨by decide, mw_digits_bound.1 "A 1500 MW plant" "500" (by decide)⟩

end DocPipeline
